import Mathlib

/-!
Verification development for the sbar-rs daemon core.

Shallow embedding of the state-synchronization and display-reconcile logic:

* `src/state.rs` — `DaemonState::update_spaces`, `update_windows`,
  `update_current_app`, with `HashMap` modelled as an association list
  (`SMap`) whose insert overwrites the existing binding for a key.
* `src/main.rs` — `SketchyBarDaemon::detect_and_setup_displays`,
  `monitor_displays` and the startup portion of `run`, with the fallible
  external calls (`config::setup_bar`, `items::setup_all_items`,
  `SketchyBar::hotload`) parameterized by a `ProvisionEnv` of outcomes and
  the performed side effects recorded in an `Action` log.
* `src/helpers/yabai.rs` — `get_displays`, parameterized by the outcome of
  running the external `yabai` command (`CmdOutcome`).

External queries are passed in as `Except Unit` values (the daemon only
observes success-with-data or failure, per `anyhow::Result`).  `f64` frame
coordinates are modelled as `Int`: the embedded code only stores and
compares them, it performs no floating-point arithmetic.
-/

namespace SbarRs

/-- Decidable equality of `Except` results, needed to evaluate concrete
scenarios. -/
instance exceptDecEq {ε α : Type} [DecidableEq ε] [DecidableEq α] : DecidableEq (Except ε α)
  | .error e, .error f =>
      if h : e = f then isTrue (by rw [h]) else isFalse (by intro hc; cases hc; exact h rfl)
  | .error _, .ok _ => isFalse (by intro hc; cases hc)
  | .ok _, .error _ => isFalse (by intro hc; cases hc)
  | .ok x, .ok y =>
      if h : x = y then isTrue (by rw [h]) else isFalse (by intro hc; cases hc; exact h rfl)

/-- Association-list model of `std::collections::HashMap`.  `insert`
overwrites any existing binding of the key, `len` is the number of stored
entries, and iteration order (which real `HashMap` leaves unspecified) is
fixed by the list. -/
structure SMap (α β : Type) where
  entries : List (α × β)
deriving DecidableEq

/-- Key lookup on the underlying entry list (`HashMap::get`). -/
def lookupL {α β : Type} [DecidableEq α] : List (α × β) → α → Option β
  | [], _ => none
  | p :: rest, q => if p.1 = q then some p.2 else lookupL rest q

/-- Key removal on the underlying entry list (`HashMap::remove`). -/
def eraseL {α β : Type} [DecidableEq α] : List (α × β) → α → List (α × β)
  | [], _ => []
  | p :: rest, q => if p.1 = q then eraseL rest q else p :: eraseL rest q

namespace SMap

variable {α β : Type} [DecidableEq α]

def empty : SMap α β := ⟨[]⟩

def lookup (m : SMap α β) (k : α) : Option β := lookupL m.entries k

def erase (m : SMap α β) (k : α) : SMap α β := ⟨eraseL m.entries k⟩

/-- `HashMap::insert`: the new binding replaces any previous one. -/
def insert (m : SMap α β) (k : α) (v : β) : SMap α β := ⟨(k, v) :: eraseL m.entries k⟩

def contains (m : SMap α β) (k : α) : Bool := (m.lookup k).isSome

def len (m : SMap α β) : Nat := m.entries.length

def keys (m : SMap α β) : List α := m.entries.map Prod.fst

end SMap

/-- `crate::state::SpaceInfo` (src/state.rs). -/
structure SpaceInfo where
  index : Nat
  display : Nat
  has_focus : Bool
  windows : List Nat
  label : String
deriving DecidableEq

/-- `crate::state::WindowInfo` (src/state.rs). -/
structure WindowInfo where
  id : Nat
  app : String
  title : String
  space : Nat
  display : Nat
  has_focus : Bool
deriving DecidableEq

/-- Builds a map from a query result list, keyed by `key`, by inserting the
records in order into an initially cleared map — the `clear` plus insertion
loop shared by `update_spaces` and `update_windows`. -/
def buildKeyed {α β : Type} [DecidableEq α] (key : β → α) (data : List β) : SMap α β :=
  data.foldl (fun m x => m.insert (key x) x) SMap.empty

/-- The last record of `data` whose key is `q`, if any: the binding that
survives in `buildKeyed` since later inserts overwrite earlier ones. -/
def lastKeyed {α β : Type} [DecidableEq α] (key : β → α) (data : List β) (q : α) : Option β :=
  match data with
  | [] => none
  | x :: rest =>
      match lastKeyed key rest q with
      | some v => some v
      | none => if key x = q then some x else none

/-- The per-record change test of `DaemonState::update_spaces`
(src/state.rs lines 36-46): a record counts as changed when the prior map
has no entry at its index, or has one with a different focus flag or a
different window count. -/
def spaceChanged (prior : SMap Nat SpaceInfo) (s : SpaceInfo) : Bool :=
  match prior.lookup s.index with
  | some existing =>
      decide (existing.has_focus ≠ s.has_focus) || decide (existing.windows.length ≠ s.windows.length)
  | none => true

/-- `DaemonState::update_spaces` (src/state.rs lines 29-59), parameterized
by the result of `query_spaces`.  A failed query propagates before the map
is touched; otherwise `changed` is computed against the prior map and the
whole map is replaced by the queried records keyed by space index. -/
def update_spaces (q : Except Unit (List SpaceInfo)) (prior : SMap Nat SpaceInfo) :
    Except Unit (Bool × SMap Nat SpaceInfo) :=
  match q with
  | .error e => .error e
  | .ok spaces_data => .ok (spaces_data.any (spaceChanged prior), buildKeyed SpaceInfo.index spaces_data)

/-- `DaemonState::update_windows` (src/state.rs lines 62-81), parameterized
by the result of `query_windows`.  A failed query propagates before the map
is touched; otherwise the whole map is replaced by the queried records keyed
by window id and `changed` is the comparison of the new cardinality against
the old one. -/
def update_windows (q : Except Unit (List WindowInfo)) (prior : SMap Nat WindowInfo) :
    Except Unit (Bool × SMap Nat WindowInfo) :=
  match q with
  | .error e => .error e
  | .ok windows_data =>
      .ok (decide ((buildKeyed WindowInfo.id windows_data).len ≠ prior.len),
        buildKeyed WindowInfo.id windows_data)

/-- `DaemonState::update_current_app` (src/state.rs lines 84-98),
parameterized by the result of `query_focused_app`.  A failed query is
replaced by the sentinel name `Unknown` (`unwrap_or_else`), so the operation
itself always returns `Ok`; `changed` compares the new name against the
prior value by equality and the value is written only when it changed. -/
def update_current_app (q : Except Unit String) (prior : Option String) :
    Except Unit (Bool × Option String) :=
  let new_app := match q with | .ok a => a | .error _ => "Unknown"
  let changed := decide (prior ≠ some new_app)
  .ok (changed, if changed then some new_app else prior)

/-- The three independently refreshable collections of `DaemonState`
relevant to the state-sync task (src/state.rs lines 11-16). -/
structure Snapshot where
  spaces : SMap Nat SpaceInfo
  windows : SMap Nat WindowInfo
  current_app : Option String
deriving DecidableEq

/-- One tick of `EventManager::spawn_state_sync_task` (src/events.rs lines
96-126): the three refresh operations run on disjoint collections
(`tokio::join!`), each error is handled independently, and a failed refresh
leaves its own collection untouched. -/
def sync_cycle (qs : Except Unit (List SpaceInfo)) (qw : Except Unit (List WindowInfo))
    (qa : Except Unit String) (st : Snapshot) :
    (Except Unit Bool × Except Unit Bool × Except Unit Bool) × Snapshot :=
  let rs := update_spaces qs st.spaces
  let rw := update_windows qw st.windows
  let ra := update_current_app qa st.current_app
  ((rs.map Prod.fst, rw.map Prod.fst, ra.map Prod.fst),
   { spaces := match rs with | .ok (_, m) => m | .error _ => st.spaces,
     windows := match rw with | .ok (_, m) => m | .error _ => st.windows,
     current_app := match ra with | .ok (_, a) => a | .error _ => st.current_app })

/-- `crate::helpers::yabai::DisplayFrame` (src/helpers/yabai.rs).  The
`f64` coordinates are modelled as `Int`; the embedded code only stores
them. -/
structure DisplayFrame where
  x : Int
  y : Int
  w : Int
  h : Int
deriving DecidableEq

/-- `crate::helpers::yabai::DisplayInfo` (src/helpers/yabai.rs). -/
structure DisplayInfo where
  index : Nat
  is_builtin : Bool
  frame : DisplayFrame
deriving DecidableEq

/-- Raw record deserialized from the yabai displays query
(`YabaiDisplay` in src/helpers/yabai.rs). -/
structure YabaiDisplay where
  index : Nat
  label : String
  frame : DisplayFrame
deriving DecidableEq

/-- Contiguous-run membership on lists, used to model Rust
`str::contains` on the display label. -/
def containsSeq {γ : Type} [DecidableEq γ] : List γ → List γ → Bool
  | needle, [] => needle.isEmpty
  | needle, c :: rest => needle.isPrefixOf (c :: rest) || containsSeq needle rest

/-- Conversion performed per display in `get_displays`
(src/helpers/yabai.rs lines 48-61): builtin when the label mentions
`Built-in` or the index is 1. -/
def toDisplayInfo (d : YabaiDisplay) : DisplayInfo :=
  { index := d.index,
    is_builtin := containsSeq "Built-in".data d.label.data || decide (d.index = 1),
    frame := d.frame }

/-- Outcome of running the external `yabai -m query --displays` command:
the spawn itself can fail (`Command::output()` returns `Err`), the process
can exit unsuccessfully, the stdout can fail UTF-8 or JSON decoding, or a
record list is obtained. -/
inductive CmdOutcome where
  | spawnFail
  | statusFail
  | parseFail
  | parsed (displays : List YabaiDisplay)
deriving DecidableEq

/-- `get_displays` (src/helpers/yabai.rs lines 25-64): a spawn or parse
failure is an error; an unsuccessful exit status falls back to a default
single builtin display; otherwise the records are keyed by the decimal
string of their index. -/
def get_displays (cmd : CmdOutcome) : Except Unit (SMap String DisplayInfo) :=
  match cmd with
  | .spawnFail => .error ()
  | .statusFail =>
      .ok (SMap.empty.insert "1"
        { index := 1, is_builtin := true, frame := { x := 0, y := 0, w := 1920, h := 1080 } })
  | .parseFail => .error ()
  | .parsed ds => .ok (ds.foldl (fun m d => m.insert (toString d.index) (toDisplayInfo d)) SMap.empty)

/-- `crate::sketchybar::SketchyBar` (src/sketchybar.rs): the daemon-side
handle is just the bar name it addresses. -/
structure Bar where
  bar_name : String
deriving DecidableEq

/-- Outcomes of the fallible external provisioning calls made by
`detect_and_setup_displays` for a given display id: `config::setup_bar`,
`items::setup_all_items` and `SketchyBar::hotload`.  The hotload outcome
only affects a warning log, never control flow, and is carried for
fidelity. -/
structure ProvisionEnv where
  setup_bar_ok : String → Bool
  setup_items_ok : String → Bool
  hotload_ok : String → Bool

/-- Externally visible provisioning and deprovisioning actions performed by
one `detect_and_setup_displays` pass: bar removal, the `config::setup_bar`
call, the `items::setup_all_items` call, the hotload call, and the final
registration of the bar in the `bars` map. -/
inductive Action where
  | removeBar (display_id : String)
  | configureBar (display_id : String)
  | populateBar (display_id : String)
  | hotloadBar (display_id : String)
  | registerBar (display_id : String)
deriving DecidableEq

/-- The reconciler-owned state of `SketchyBarDaemon` (src/main.rs lines
28-33): the known display set, the bars map, and the mirrored
`DaemonState.displays` snapshot collection. -/
structure DaemonSt where
  displays : SMap String DisplayInfo
  bars : SMap String Bar
  state_displays : SMap String DisplayInfo
deriving DecidableEq

/-- Initial daemon state built by `SketchyBarDaemon::new` and
`DaemonState::new`: all maps empty. -/
def emptyDaemonSt : DaemonSt := ⟨SMap.empty, SMap.empty, SMap.empty⟩

/-- Bar name selection (src/main.rs lines 132-136). -/
def barNameFor (info : DisplayInfo) : String :=
  if info.is_builtin then "sketchybar" else "external_" ++ toString info.index

/-- Body of the new-display loop of `detect_and_setup_displays`
(src/main.rs lines 128-161) for one queried display `p`, folded over the
accumulated bars map and action log.  A display already in the known set
(after removals) is skipped; a failed `config::setup_bar` or
`items::setup_all_items` call aborts that display with `continue`, leaving
the bar unregistered; on success the hotload call is made (its failure only
warns) and the bar is inserted. -/
def provisionStep (env : ProvisionEnv) (known : SMap String DisplayInfo)
    (acc : SMap String Bar × List Action) (p : String × DisplayInfo) :
    SMap String Bar × List Action :=
  if known.contains p.1 then acc
  else if env.setup_bar_ok p.1 = false then
    (acc.1, acc.2 ++ [Action.configureBar p.1])
  else if env.setup_items_ok p.1 = false then
    (acc.1, acc.2 ++ [Action.configureBar p.1, Action.populateBar p.1])
  else
    (acc.1.insert p.1 { bar_name := barNameFor p.2 },
     acc.2 ++ [Action.configureBar p.1, Action.populateBar p.1, Action.hotloadBar p.1,
       Action.registerBar p.1])

/-- `SketchyBarDaemon::detect_and_setup_displays` (src/main.rs lines
106-168) downstream of the display query result: remove bars for
disconnected displays, provision bars for new displays, then replace both
the known display set and the snapshot displays collection with the query
result. -/
def detect_core (env : ProvisionEnv) (q : Except Unit (SMap String DisplayInfo)) (st : DaemonSt) :
    Except Unit (DaemonSt × List Action) :=
  match q with
  | .error e => .error e
  | .ok newDisplays =>
      let toRemove := st.displays.keys.filter (fun i => !(newDisplays.contains i))
      let displays1 := toRemove.foldl SMap.erase st.displays
      let bars1 := toRemove.foldl SMap.erase st.bars
      let added := newDisplays.entries.foldl (provisionStep env displays1) (bars1, [])
      .ok ({ displays := newDisplays, bars := added.1, state_displays := newDisplays },
        toRemove.map Action.removeBar ++ added.2)

/-- `detect_and_setup_displays` including its internal `get_displays`
call (src/main.rs line 107). -/
def detect_and_setup_displays (env : ProvisionEnv) (cmd : CmdOutcome) (st : DaemonSt) :
    Except Unit (DaemonSt × List Action) :=
  detect_core env (get_displays cmd) st

/-- One tick of `SketchyBarDaemon::monitor_displays` (src/main.rs lines
171-182): a failed reconcile is logged and the loop continues with the
state untouched. -/
def monitor_step (env : ProvisionEnv) (cmd : CmdOutcome) (st : DaemonSt) : DaemonSt :=
  match detect_and_setup_displays env cmd st with
  | .error _ => st
  | .ok (st1, _) => st1

/-- `n` ticks of the `monitor_displays` loop with a fixed per-tick command
outcome.  The loop itself has no exit path other than daemon shutdown; it
is total in `n`. -/
def monitor_run (env : ProvisionEnv) (cmd : CmdOutcome) : Nat → DaemonSt → DaemonSt
  | 0, st => st
  | n + 1, st => monitor_run env cmd n (monitor_step env cmd st)

/-- The startup portion of `SketchyBarDaemon::run` (src/main.rs line 69):
the initial `detect_and_setup_displays` call uses the `?` operator, so its
error propagates out of `run` (and from `main`, terminating the
process). -/
def run_startup (env : ProvisionEnv) (cmd : CmdOutcome) (st : DaemonSt) : Except Unit DaemonSt :=
  match detect_and_setup_displays env cmd st with
  | .error e => .error e
  | .ok (st1, _) => .ok st1

/-! Fine-grained model of the `update_spaces` critical section for the
atomic-replace property.  In src/state.rs lines 31-52 the writer acquires
`self.spaces.write().await` once, then clears the map and inserts every
queried record before the guard is dropped.  A reader
(`self.spaces.read().await`) can run only while the write lock is not
held, which the `RwLock` semantics guarantee; the model therefore lets a
read observe the map exactly in the phases where the writer does not hold
the lock. -/

/-- Phase of the `update_spaces` writer with respect to the `spaces`
write lock. -/
inductive WriterPhase where
  | beforeLock
  | holdingLock (cleared : Bool) (pending : List SpaceInfo)
  | released
deriving DecidableEq

/-- The `spaces` map together with the writer phase. -/
structure SpacesSync where
  map : SMap Nat SpaceInfo
  phase : WriterPhase
deriving DecidableEq

/-- True exactly when the writer does not hold the `spaces` write lock, so
a concurrent reader can acquire the read lock and observe the map. -/
def lockFree : WriterPhase → Bool
  | .beforeLock => true
  | .holdingLock _ _ => false
  | .released => true

/-- Micro-steps of one `update_spaces` refresh with query result `data`:
acquire the write lock (the change computation only reads), clear the map,
insert the pending records one at a time, release the lock when all are
inserted. -/
inductive SyncStep (data : List SpaceInfo) : SpacesSync → SpacesSync → Prop where
  | acquire (m : SMap Nat SpaceInfo) :
      SyncStep data ⟨m, .beforeLock⟩ ⟨m, .holdingLock false data⟩
  | clear (m : SMap Nat SpaceInfo) (pending : List SpaceInfo) :
      SyncStep data ⟨m, .holdingLock false pending⟩ ⟨SMap.empty, .holdingLock true pending⟩
  | ins (m : SMap Nat SpaceInfo) (s : SpaceInfo) (rest : List SpaceInfo) :
      SyncStep data ⟨m, .holdingLock true (s :: rest)⟩
        ⟨m.insert s.index s, .holdingLock true rest⟩
  | release (m : SMap Nat SpaceInfo) :
      SyncStep data ⟨m, .holdingLock true []⟩ ⟨m, .released⟩

/-- Inductive invariant of the refresh: before the lock the map is the
prior one; under the lock the map is the fold of the already-inserted
records; after release it is the full replacement. -/
def SyncInv (data : List SpaceInfo) (m0 : SMap Nat SpaceInfo) (s : SpacesSync) : Prop :=
  match s.phase with
  | .beforeLock => s.map = m0
  | .holdingLock false pending => s.map = m0 ∧ pending = data
  | .holdingLock true pending =>
      ∃ dn, data = dn ++ pending ∧
        s.map = dn.foldl (fun m sp => m.insert sp.index sp) SMap.empty
  | .released => s.map = buildKeyed SpaceInfo.index data

/-! Concrete inputs used by the scenario claims and witnesses. -/

/-- Sample space record: space 1 on display 1, focused. -/
def spFoc1 : SpaceInfo := ⟨1, 1, true, [10], "one"⟩

/-- Sample space record: space 2 on display 1, unfocused. -/
def spUnf2 : SpaceInfo := ⟨2, 1, false, [11, 12], "two"⟩

/-- Sample space record: space 1 unfocused (focus moved away). -/
def spUnf1 : SpaceInfo := ⟨1, 1, false, [10], "one"⟩

/-- Sample space record: space 2 focused (focus moved here). -/
def spFoc2 : SpaceInfo := ⟨2, 1, true, [11, 12], "two"⟩

/-- Sample display 1, builtin. -/
def dInfo1 : DisplayInfo := ⟨1, true, ⟨0, 0, 1920, 1080⟩⟩

/-- Sample display 2, external. -/
def dInfo2 : DisplayInfo := ⟨2, false, ⟨1920, 0, 1920, 1080⟩⟩

/-- Provisioning environment in which every external call succeeds. -/
def envAllOk : ProvisionEnv := ⟨fun _ => true, fun _ => true, fun _ => true⟩

/-- Provisioning environment in which `config::setup_bar` succeeds but
`items::setup_all_items` fails for every display. -/
def envItemsFail : ProvisionEnv := ⟨fun _ => true, fun _ => false, fun _ => true⟩

/-- Display query result holding only display 1. -/
def qOne : SMap String DisplayInfo := SMap.empty.insert "1" dInfo1

/-- Daemon state with displays 1 and 2 known and both bars registered. -/
def stTwoDisplays : DaemonSt :=
  { displays := (SMap.empty.insert "1" dInfo1).insert "2" dInfo2,
    bars := (SMap.empty.insert "1" ⟨"sketchybar"⟩).insert "2" ⟨"external_2"⟩,
    state_displays := (SMap.empty.insert "1" dInfo1).insert "2" dInfo2 }

/-- Daemon state after a pass in which display 1 appeared but its item
population failed: the display is in the known set and mirrored snapshot,
yet no bar is registered. -/
def stHalf : DaemonSt := { displays := qOne, bars := SMap.empty, state_displays := qOne }

/-- Daemon state after display 1 was provisioned successfully. -/
def stOneProvisioned : DaemonSt :=
  { displays := qOne, bars := SMap.empty.insert "1" ⟨"sketchybar"⟩, state_displays := qOne }

/-! Helper lemmas about the map model. -/

theorem lookupL_eq_none {α β : Type} [DecidableEq α] (l : List (α × β)) (q : α) :
    lookupL l q = none ↔ ∀ p ∈ l, p.1 ≠ q := by
  induction l with
  | nil => simp [lookupL]
  | cons p rest ih =>
      by_cases h : p.1 = q
      · simp [lookupL, h]
      · simp [lookupL, h, ih]

theorem lookupL_eraseL_ne {α β : Type} [DecidableEq α] (l : List (α × β)) (k q : α)
    (h : q ≠ k) : lookupL (eraseL l k) q = lookupL l q := by
  induction l with
  | nil => rfl
  | cons p rest ih =>
      by_cases hk : p.1 = k
      · have hq : ¬ p.1 = q := by rw [hk]; exact fun e => h e.symm
        rw [show eraseL (p :: rest) k = eraseL rest k by simp [eraseL, hk]]
        rw [show lookupL (p :: rest) q = lookupL rest q by simp [lookupL, hq]]
        exact ih
      · simp only [eraseL, if_neg hk, lookupL]
        by_cases hq : p.1 = q
        · simp [hq]
        · simp [hq, ih]

theorem mem_of_mem_eraseL {α β : Type} [DecidableEq α] {l : List (α × β)} {k : α}
    {p : α × β} (h : p ∈ eraseL l k) : p ∈ l := by
  induction l with
  | nil => cases h
  | cons x rest ih =>
      by_cases hx : x.1 = k
      · rw [show eraseL (x :: rest) k = eraseL rest k by simp [eraseL, hx]] at h
        exact List.mem_cons_of_mem x (ih h)
      · rw [show eraseL (x :: rest) k = x :: eraseL rest k by simp [eraseL, hx]] at h
        cases h with
        | head => exact List.mem_cons_self _ _
        | tail _ h2 => exact List.mem_cons_of_mem x (ih h2)

theorem SMap.lookup_insert {α β : Type} [DecidableEq α] (m : SMap α β) (k q : α) (v : β) :
    (m.insert k v).lookup q = if k = q then some v else m.lookup q := by
  by_cases h : k = q
  · simp [SMap.insert, SMap.lookup, lookupL, h]
  · have hq : q ≠ k := fun e => h e.symm
    simp [SMap.insert, SMap.lookup, lookupL, h, lookupL_eraseL_ne m.entries k q hq]

theorem SMap.contains_eq_false_iff {α β : Type} [DecidableEq α] (m : SMap α β) (q : α) :
    m.contains q = false ↔ ∀ p ∈ m.entries, p.1 ≠ q := by
  rw [← lookupL_eq_none m.entries q]
  unfold SMap.contains SMap.lookup
  cases lookupL m.entries q <;> simp

theorem SMap.contains_of_mem_keys {α β : Type} [DecidableEq α] (m : SMap α β) (q : α)
    (h : q ∈ m.keys) : m.contains q = true := by
  rcases List.mem_map.mp h with ⟨p, hp, he⟩
  cases hcon : m.contains q with
  | true => rfl
  | false => exact absurd he ((SMap.contains_eq_false_iff m q).mp hcon p hp)

theorem SMap.contains_erase_false {α β : Type} [DecidableEq α] (m : SMap α β) (k q : α)
    (h : m.contains q = false) : (m.erase k).contains q = false := by
  rw [SMap.contains_eq_false_iff] at h ⊢
  intro p hp
  exact h p (mem_of_mem_eraseL hp)

theorem SMap.contains_insert_false {α β : Type} [DecidableEq α] (m : SMap α β) (k q : α)
    (v : β) (hk : k ≠ q) (h : m.contains q = false) :
    (m.insert k v).contains q = false := by
  have : (m.insert k v).lookup q = m.lookup q := by
    rw [SMap.lookup_insert, if_neg hk]
  unfold SMap.contains
  rw [this]
  exact h

theorem filter_eq_nil_of {γ : Type} (p : γ → Bool) (l : List γ)
    (h : ∀ a ∈ l, p a = false) : l.filter p = [] := by
  induction l with
  | nil => rfl
  | cons x rest ih =>
      rw [List.filter_cons, h x (List.mem_cons_self x rest)]
      exact ih fun a ha => h a (List.mem_cons_of_mem x ha)

theorem foldl_fixed {σ ι : Type} (f : σ → ι → σ) (l : List ι) (acc : σ)
    (h : ∀ b x, x ∈ l → f b x = b) : l.foldl f acc = acc := by
  induction l generalizing acc with
  | nil => rfl
  | cons x rest ih =>
      rw [List.foldl_cons, h acc x (List.mem_cons_self x rest)]
      exact ih acc fun b y hy => h b y (List.mem_cons_of_mem x hy)

theorem foldl_pres {σ ι : Type} (P : σ → Prop) (f : σ → ι → σ) (l : List ι) (acc : σ)
    (h0 : P acc) (h : ∀ b x, x ∈ l → P b → P (f b x)) : P (l.foldl f acc) := by
  induction l generalizing acc with
  | nil => exact h0
  | cons x rest ih =>
      exact ih (f acc x) (h acc x (List.mem_cons_self x rest) h0)
        fun b y hy hb => h b y (List.mem_cons_of_mem x hy) hb

theorem lookup_foldl_insert {α β : Type} [DecidableEq α] (key : β → α) (data : List β)
    (acc : SMap α β) (q : α) :
    (data.foldl (fun m x => m.insert (key x) x) acc).lookup q
      = match lastKeyed key data q with
        | some v => some v
        | none => acc.lookup q := by
  induction data generalizing acc with
  | nil => rfl
  | cons x rest ih =>
      rw [List.foldl_cons, ih]
      cases h : lastKeyed key rest q with
      | some v => simp [lastKeyed, h]
      | none =>
          simp only [lastKeyed, h]
          by_cases hx : key x = q
          · simp [hx, SMap.lookup_insert]
          · simp [hx, SMap.lookup_insert]

theorem lookup_buildKeyed {α β : Type} [DecidableEq α] (key : β → α) (data : List β)
    (q : α) : (buildKeyed key data).lookup q = lastKeyed key data q := by
  unfold buildKeyed
  rw [lookup_foldl_insert]
  cases lastKeyed key data q <;> rfl

theorem lastKeyed_some {α β : Type} [DecidableEq α] {key : β → α} {data : List β} {q : α}
    {v : β} (h : lastKeyed key data q = some v) : v ∈ data ∧ key v = q := by
  induction data with
  | nil => cases h
  | cons x rest ih =>
      simp only [lastKeyed] at h
      cases hr : lastKeyed key rest q with
      | some w =>
          rw [hr] at h
          cases h
          rcases ih hr with ⟨hm, hk⟩
          exact ⟨List.mem_cons_of_mem x hm, hk⟩
      | none =>
          rw [hr] at h
          by_cases hx : key x = q
          · rw [if_pos hx] at h
            cases h
            exact ⟨List.mem_cons_self _ _, hx⟩
          · rw [if_neg hx] at h
            cases h

theorem lastKeyed_eq_none_iff {α β : Type} [DecidableEq α] (key : β → α) (data : List β)
    (q : α) : lastKeyed key data q = none ↔ ∀ x ∈ data, key x ≠ q := by
  induction data with
  | nil => simp [lastKeyed]
  | cons x rest ih =>
      simp only [lastKeyed]
      cases h : lastKeyed key rest q with
      | some v =>
          rcases lastKeyed_some h with ⟨hm, hk⟩
          constructor
          · intro hc; exact Option.noConfusion hc
          · intro hall; exact absurd hk (hall v (List.mem_cons_of_mem x hm))
      | none =>
          have hrest : ∀ y ∈ rest, key y ≠ q := ih.mp h
          by_cases hx : key x = q
          · constructor
            · intro hc
              rw [if_pos hx] at hc
              exact Option.noConfusion hc
            · intro hall; exact absurd hx (hall x (List.mem_cons_self x rest))
          · rw [if_neg hx]
            constructor
            · intro _ y hy
              cases hy with
              | head => exact hx
              | tail _ h2 => exact hrest y h2
            · intro _; rfl

/-! Helper lemmas about the reconcile pass. -/

theorem detect_core_shape (env : ProvisionEnv) (D : SMap String DisplayInfo) (st st1 : DaemonSt)
    (acts : List Action) (h : detect_core env (.ok D) st = .ok (st1, acts)) :
    st1.displays = D ∧ st1.state_displays = D := by
  simp only [detect_core, Except.ok.injEq, Prod.mk.injEq] at h
  rcases h with ⟨h1, _⟩
  rw [← h1]
  exact ⟨rfl, rfl⟩

theorem detect_core_noop (env : ProvisionEnv) (D : SMap String DisplayInfo) (st : DaemonSt)
    (h : st.displays = D) :
    detect_core env (.ok D) st = .ok (⟨D, st.bars, D⟩, []) := by
  have hrem : D.keys.filter (fun i => !(D.contains i)) = [] := by
    apply filter_eq_nil_of
    intro a ha
    simp [SMap.contains_of_mem_keys D a ha]
  have hfold : D.entries.foldl (provisionStep env D) (st.bars, ([] : List Action))
      = (st.bars, []) := by
    apply foldl_fixed
    intro b p hp
    have hc : D.contains p.1 = true :=
      SMap.contains_of_mem_keys D p.1 (List.mem_map_of_mem Prod.fst hp)
    simp [provisionStep, hc]
  simp only [detect_core, h, hrem, List.foldl_nil, List.map_nil, List.nil_append, hfold]

theorem detect_core_not_registered (env : ProvisionEnv) (D : SMap String DisplayInfo)
    (st st1 : DaemonSt) (acts : List Action) (i : String)
    (hbars : st.bars.contains i = false)
    (hfail : env.setup_bar_ok i = false ∨ env.setup_items_ok i = false)
    (h : detect_core env (.ok D) st = .ok (st1, acts)) :
    st1.bars.contains i = false := by
  simp only [detect_core, Except.ok.injEq, Prod.mk.injEq] at h
  rcases h with ⟨h1, _⟩
  rw [← h1]
  dsimp only
  refine foldl_pres
    (fun acc : SMap String Bar × List Action => acc.1.contains i = false) _ _ _ ?_ ?_
  · dsimp only
    refine foldl_pres (fun m : SMap String Bar => m.contains i = false) _ _ _ hbars ?_
    intro b k _ hb
    exact SMap.contains_erase_false b k i hb
  · intro b p _ hb
    unfold provisionStep
    split
    next => exact hb
    next =>
      split
      next => exact hb
      next hbar =>
        split
        next => exact hb
        next hit =>
          by_cases hpi : p.1 = i
          · exfalso
            rcases hfail with hf | hf
            · exact hbar (by rw [hpi]; exact hf)
            · exact hit (by rw [hpi]; exact hf)
          · exact SMap.contains_insert_false b.1 p.1 i _ hpi hb

theorem detect_core_second_pass (env1 env2 : ProvisionEnv) (D : SMap String DisplayInfo)
    (st0 st1 : DaemonSt) (acts1 : List Action)
    (hrun : detect_core env1 (.ok D) st0 = .ok (st1, acts1)) :
    detect_core env2 (.ok D) st1 = .ok (st1, []) := by
  cases st1 with
  | mk d b s =>
      rcases detect_core_shape env1 D st0 ⟨d, b, s⟩ acts1 hrun with ⟨hd, hs⟩
      dsimp at hd hs
      rw [detect_core_noop env2 D ⟨d, b, s⟩ hd, hd, hs]

/-! Helper lemmas about the update_spaces critical section. -/

theorem syncInv_step (data : List SpaceInfo) (m0 : SMap Nat SpaceInfo) (s t : SpacesSync)
    (hstep : SyncStep data s t) (hinv : SyncInv data m0 s) : SyncInv data m0 t := by
  cases hstep with
  | acquire m =>
      have hm : m = m0 := hinv
      exact ⟨hm, rfl⟩
  | clear m pending =>
      obtain ⟨h1, h2⟩ := hinv
      exact ⟨[], by rw [h2, List.nil_append], rfl⟩
  | ins m s0 rest =>
      obtain ⟨dn, hdata, hm⟩ := hinv
      refine ⟨dn ++ [s0], ?_, ?_⟩
      · rw [List.append_assoc]
        exact hdata
      · have hm2 : m = List.foldl (fun mm sp => mm.insert sp.index sp) SMap.empty dn := hm
        show m.insert s0.index s0
            = List.foldl (fun mm sp => mm.insert sp.index sp) SMap.empty (dn ++ [s0])
        rw [List.foldl_append, ← hm2]
        rfl
  | release m =>
      obtain ⟨dn, hdata, hm⟩ := hinv
      rw [List.append_nil] at hdata
      subst hdata
      exact hm

theorem syncInv_reachable (data : List SpaceInfo) (m0 : SMap Nat SpaceInfo) (s : SpacesSync)
    (hreach : Relation.ReflTransGen (SyncStep data) ⟨m0, WriterPhase.beforeLock⟩ s) :
    SyncInv data m0 s := by
  induction hreach with
  | refl => exact rfl
  | tail _ hstep ih => exact syncInv_step data m0 _ _ hstep ih

/-! Claim theorems. -/

/-- Claim C1, counterexample: with one newly attached display whose item
population fails, the first reconcile pass registers no bar, and a second
pass with the same attached display — in an environment where provisioning
would now succeed — performs no action at all and still registers no bar.
Provisioning is therefore not attempted again on the next reconcile pass,
contrary to the claim. -/
theorem c1_counterexample :
    detect_core envItemsFail (.ok qOne) emptyDaemonSt
      = .ok (stHalf, [Action.configureBar "1", Action.populateBar "1"])
    ∧ detect_core envAllOk (.ok qOne) stHalf = .ok (stHalf, [])
    ∧ stHalf.bars.contains "1" = false
    ∧ stHalf.displays.contains "1" = true := by decide

/-- Claim C1, amended: if provisioning a render target for a newly attached
display fails partway (the bar-configuration or item-population call
errors), the target is skipped from registration in that reconcile pass;
but because the known display set is replaced by the full query result
regardless, the next reconcile pass with the same display set performs no
provisioning at all — the display is left without a registered render
target for as long as it stays attached. -/
theorem c1_amended_no_retry (env1 env2 : ProvisionEnv) (D : SMap String DisplayInfo)
    (st0 st1 : DaemonSt) (acts1 : List Action) (i : String)
    (hbars : st0.bars.contains i = false)
    (hfail : env1.setup_bar_ok i = false ∨ env1.setup_items_ok i = false)
    (hrun : detect_core env1 (.ok D) st0 = .ok (st1, acts1)) :
    st1.bars.contains i = false ∧ detect_core env2 (.ok D) st1 = .ok (st1, []) :=
  ⟨detect_core_not_registered env1 D st0 st1 acts1 i hbars hfail hrun,
   detect_core_second_pass env1 env2 D st0 st1 acts1 hrun⟩

/-- Claim C1 witness: display 1 attaches, its item population fails, and on
the second pass it is neither provisioned nor registered. -/
theorem c1_amended_no_retry_witness :
    (emptyDaemonSt.bars.contains "1" = false
      ∧ (envItemsFail.setup_bar_ok "1" = false ∨ envItemsFail.setup_items_ok "1" = false)
      ∧ detect_core envItemsFail (.ok qOne) emptyDaemonSt
          = .ok (stHalf, [Action.configureBar "1", Action.populateBar "1"]))
    ∧ (stHalf.bars.contains "1" = false
      ∧ detect_core envAllOk (.ok qOne) stHalf = .ok (stHalf, [])) :=
  ⟨⟨by decide, Or.inr (by decide), by decide⟩,
   c1_amended_no_retry envItemsFail envAllOk qOne emptyDaemonSt stHalf
     [Action.configureBar "1", Action.populateBar "1"] "1"
     (by decide) (Or.inr (by decide)) (by decide)⟩

/-- Claim C2: when the windows query fails, update_windows returns an error
and the windows mapping afterwards equals the prior mapping, while in the
same sync cycle update_spaces (with a successful query) and
update_current_app still succeed and update their own collections. -/
theorem c2_windows_failure_isolated (st : Snapshot) (ds : List SpaceInfo)
    (qa : Except Unit String) :
    update_windows (.error ()) st.windows = .error ()
    ∧ (sync_cycle (.ok ds) (.error ()) qa st).2.windows = st.windows
    ∧ (sync_cycle (.ok ds) (.error ()) qa st).1.2.1 = .error ()
    ∧ (sync_cycle (.ok ds) (.error ()) qa st).1.1 = .ok (ds.any (spaceChanged st.spaces))
    ∧ (sync_cycle (.ok ds) (.error ()) qa st).2.spaces = buildKeyed SpaceInfo.index ds
    ∧ (sync_cycle (.ok ds) (.error ()) qa st).1.2.2.isOk = true :=
  ⟨rfl, rfl, rfl, rfl, rfl, rfl⟩

/-- Claim C3: a prior spaces mapping with space 1 focused, refreshed from a
query in which the record at index 1 is no longer focused, yields
changed = true and the mapping is replaced by the query result. -/
theorem c3_focus_swap_changed (prior : SMap Nat SpaceInfo) (data : List SpaceInfo)
    (s1 r : SpaceInfo)
    (hprior : prior.lookup 1 = some s1) (hfoc : s1.has_focus = true)
    (hr : r ∈ data) (hidx : r.index = 1) (hrfoc : r.has_focus = false) :
    update_spaces (.ok data) prior = .ok (true, buildKeyed SpaceInfo.index data) := by
  have hch : data.any (spaceChanged prior) = true := by
    rw [List.any_eq_true]
    refine ⟨r, hr, ?_⟩
    unfold spaceChanged
    rw [hidx, hprior]
    simp [hfoc, hrfoc]
  simp [update_spaces, hch]

/-- Claim C3 witness: spaces 1 and 2 with focus on 1; the query returns the
same records with focus moved to 2. -/
theorem c3_focus_swap_changed_witness :
    ((buildKeyed SpaceInfo.index [spFoc1, spUnf2]).lookup 1 = some spFoc1
      ∧ spFoc1.has_focus = true ∧ spUnf1 ∈ [spUnf1, spFoc2] ∧ spUnf1.index = 1
      ∧ spUnf1.has_focus = false)
    ∧ update_spaces (.ok [spUnf1, spFoc2]) (buildKeyed SpaceInfo.index [spFoc1, spUnf2])
        = .ok (true, buildKeyed SpaceInfo.index [spUnf1, spFoc2]) :=
  ⟨⟨by decide, by decide, by decide, by decide, by decide⟩,
   c3_focus_swap_changed (buildKeyed SpaceInfo.index [spFoc1, spUnf2]) [spUnf1, spFoc2]
     spFoc1 spUnf1 (by decide) (by decide) (by decide) (by decide) (by decide)⟩

/-- Claim C4, counterexample: when the display query fails at startup
(command spawn failure), get_displays returns an error and the startup
reconcile of run propagates it out of run — the process exits instead of
continuing to run, so the initial reconcile is a fatal error path. -/
theorem c4_counterexample :
    get_displays CmdOutcome.spawnFail = .error ()
    ∧ run_startup envAllOk CmdOutcome.spawnFail emptyDaemonSt = .error () :=
  ⟨rfl, rfl⟩

/-- Claim C4, amended: once the daemon is past startup, a display query
that fails on every periodic reconcile pass makes each pass report an
error while the monitor loop keeps running with the daemon state — known
displays, registered bars, mirrored snapshot — unchanged for any number of
ticks; the initial startup reconcile, however, propagates its error out of
run and terminates the process. -/
theorem c4_amended_degraded_loop (env : ProvisionEnv) (st : DaemonSt) (n : Nat) :
    detect_and_setup_displays env CmdOutcome.spawnFail st = .error ()
    ∧ monitor_run env CmdOutcome.spawnFail n st = st
    ∧ run_startup env CmdOutcome.spawnFail st = .error () := by
  refine ⟨rfl, ?_, rfl⟩
  induction n generalizing st with
  | zero => rfl
  | succ k ih => exact ih st

/-- Claim C5: a successful windows refresh replaces the whole mapping with
exactly the queried records keyed by window id (the binding at each id is
the last queried record with that id), and changed = true exactly when the
new cardinality differs from the prior cardinality; in particular equal
cardinality — titles or apps may differ — yields changed = false. -/
theorem c5_windows_replace (prior : SMap Nat WindowInfo) (data : List WindowInfo) :
    ∃ c m, update_windows (.ok data) prior = .ok (c, m)
      ∧ (∀ k, m.lookup k = lastKeyed WindowInfo.id data k)
      ∧ (c = true ↔ m.len ≠ prior.len)
      ∧ (m.len = prior.len → c = false) := by
  refine ⟨_, _, rfl, ?_, ?_, ?_⟩
  · intro k
    exact lookup_buildKeyed WindowInfo.id data k
  · constructor
    · exact of_decide_eq_true
    · exact decide_eq_true
  · intro he
    exact decide_eq_false fun hne => hne he

/-- Claim C6: update_current_app never propagates a query failure — a
failed query behaves exactly like a query returning the sentinel Unknown
and the operation reports success; changed is equality-based: from
Terminal to Safari it returns changed = true with the stored value Safari,
and a query returning the prior name returns changed = false. -/
theorem c6_current_app_semantics :
    (∀ (q : Except Unit String) (prior : Option String),
      ∃ c a, update_current_app q prior = .ok (c, a))
    ∧ (∀ prior : Option String,
      update_current_app (.error ()) prior = update_current_app (.ok "Unknown") prior)
    ∧ update_current_app (.ok "Safari") (some "Terminal") = .ok (true, some "Safari")
    ∧ (∀ name : String, update_current_app (.ok name) (some name) = .ok (false, some name)) := by
  refine ⟨fun q prior => ⟨_, _, rfl⟩, fun prior => rfl, by decide, ?_⟩
  intro name
  have hch : decide (some name ≠ some name) = false := decide_eq_false fun h => h rfl
  simp [update_current_app, hch]

/-- Claim C7: reconcile is idempotent — after a reconcile pass succeeds,
running it again with the display query returning the same display set
performs no provisioning or deprovisioning action (empty action log) and
leaves the known display set and the bars mapping unchanged. -/
theorem c7_reconcile_idempotent (env1 env2 : ProvisionEnv) (D : SMap String DisplayInfo)
    (st0 st1 : DaemonSt) (acts1 : List Action)
    (hrun : detect_core env1 (.ok D) st0 = .ok (st1, acts1)) :
    detect_core env2 (.ok D) st1 = .ok (st1, []) :=
  detect_core_second_pass env1 env2 D st0 st1 acts1 hrun

/-- Claim C7 witness: display 1 is provisioned on the first pass; the
second pass with the same query performs no action and changes nothing. -/
theorem c7_reconcile_idempotent_witness :
    detect_core envAllOk (.ok qOne) emptyDaemonSt
      = .ok (stOneProvisioned, [Action.configureBar "1", Action.populateBar "1",
          Action.hotloadBar "1", Action.registerBar "1"])
    ∧ detect_core envAllOk (.ok qOne) stOneProvisioned = .ok (stOneProvisioned, []) :=
  ⟨by decide,
   c7_reconcile_idempotent envAllOk envAllOk qOne emptyDaemonSt stOneProvisioned
     [Action.configureBar "1", Action.populateBar "1", Action.hotloadBar "1",
       Action.registerBar "1"] (by decide)⟩

/-- Claim C8: with displays 1 and 2 known and provisioned and the query
returning only display 1, reconcile removes the bar of display 2 and both
the known display set and the mirrored snapshot collection end up holding
exactly the key 1. -/
theorem c8_display_removal :
    detect_core envAllOk (.ok qOne) stTwoDisplays = .ok (stOneProvisioned, [Action.removeBar "2"])
    ∧ stOneProvisioned.bars.contains "2" = false
    ∧ stOneProvisioned.bars.contains "1" = true
    ∧ stOneProvisioned.displays.keys = ["1"]
    ∧ stOneProvisioned.state_displays.keys = ["1"] := by decide

/-- Claim C9: the writer of update_spaces holds the spaces write lock
across the entire clear-and-repopulate, so any state in which a reader can
acquire the read lock shows either the complete prior mapping or the
complete post-refresh mapping — never a mixture. -/
theorem c9_atomic_replace (data : List SpaceInfo) (m0 : SMap Nat SpaceInfo) (s : SpacesSync)
    (hreach : Relation.ReflTransGen (SyncStep data) ⟨m0, WriterPhase.beforeLock⟩ s)
    (hfree : lockFree s.phase = true) :
    s.map = m0 ∨ ∃ c, update_spaces (.ok data) m0 = .ok (c, s.map) := by
  have hinv : SyncInv data m0 s := syncInv_reachable data m0 s hreach
  cases s with
  | mk m phase =>
      cases phase with
      | beforeLock => exact Or.inl hinv
      | holdingLock c pending => simp [lockFree] at hfree
      | released =>
          right
          refine ⟨data.any (spaceChanged m0), ?_⟩
          have hm : m = buildKeyed SpaceInfo.index data := hinv
          rw [show (SpacesSync.mk m WriterPhase.released).map = m from rfl, hm]
          rfl

/-- Claim C9 witness: a full refresh run from the empty prior mapping with
one queried record; the final lock-free state shows the complete
post-refresh mapping. -/
theorem c9_atomic_replace_witness :
    (⟨SMap.empty.insert spFoc1.index spFoc1, WriterPhase.released⟩ : SpacesSync).map
        = (SMap.empty : SMap Nat SpaceInfo)
    ∨ ∃ c, update_spaces (.ok [spFoc1]) (SMap.empty : SMap Nat SpaceInfo)
        = .ok (c, (⟨SMap.empty.insert spFoc1.index spFoc1,
            WriterPhase.released⟩ : SpacesSync).map) :=
  c9_atomic_replace [spFoc1] SMap.empty
    ⟨SMap.empty.insert spFoc1.index spFoc1, WriterPhase.released⟩
    (Relation.ReflTransGen.head (SyncStep.acquire _)
      (Relation.ReflTransGen.head (SyncStep.clear _ _)
        (Relation.ReflTransGen.head (SyncStep.ins _ _ _)
          (Relation.ReflTransGen.head (SyncStep.release _) Relation.ReflTransGen.refl))))
    rfl

/-- Claim C10: when every queried record matches the prior mapping at its
index in focus flag and window count, the refresh reports changed = false
even if prior spaces are missing from the query result; those spaces still
disappear from the replaced mapping. -/
theorem c10_removal_not_changed (prior : SMap Nat SpaceInfo) (data : List SpaceInfo)
    (h : ∀ r ∈ data, ∃ ex, prior.lookup r.index = some ex
        ∧ ex.has_focus = r.has_focus ∧ ex.windows.length = r.windows.length) :
    update_spaces (.ok data) prior = .ok (false, buildKeyed SpaceInfo.index data)
    ∧ ∀ k, (∀ r ∈ data, r.index ≠ k) → (buildKeyed SpaceInfo.index data).lookup k = none := by
  constructor
  · have hch : data.any (spaceChanged prior) = false := by
      rw [List.any_eq_false]
      intro r hr
      rcases h r hr with ⟨ex, hlk, hfoc, hlen⟩
      unfold spaceChanged
      rw [hlk]
      simp [hfoc, hlen]
    simp [update_spaces, hch]
  · intro k hk
    rw [lookup_buildKeyed, lastKeyed_eq_none_iff]
    exact hk

/-- Claim C10 witness: prior mapping holds spaces 1 and 2; the query
returns only space 1 unchanged — changed = false and space 2 is gone from
the replaced mapping. -/
theorem c10_removal_not_changed_witness :
    (∀ r ∈ [spFoc1], ∃ ex,
        (buildKeyed SpaceInfo.index [spFoc1, spUnf2]).lookup r.index = some ex
        ∧ ex.has_focus = r.has_focus ∧ ex.windows.length = r.windows.length)
    ∧ (update_spaces (.ok [spFoc1]) (buildKeyed SpaceInfo.index [spFoc1, spUnf2])
        = .ok (false, buildKeyed SpaceInfo.index [spFoc1])
      ∧ ∀ k, (∀ r ∈ [spFoc1], r.index ≠ k)
          → (buildKeyed SpaceInfo.index [spFoc1]).lookup k = none) :=
  ⟨by
    intro r hr
    rw [List.mem_singleton] at hr
    subst hr
    exact ⟨spFoc1, by decide, rfl, rfl⟩,
   c10_removal_not_changed (buildKeyed SpaceInfo.index [spFoc1, spUnf2]) [spFoc1] (by
    intro r hr
    rw [List.mem_singleton] at hr
    subst hr
    exact ⟨spFoc1, by decide, rfl, rfl⟩)⟩

end SbarRs
